import Mathlib

/-
  Verification of the echo-jwt middleware specification.

  The repository sources at hand contain the error type errors.go, the test
  suite, an example and a benchmark.  The middleware implementation itself
  (configuration builder, extractor chain, key resolver, token validator and
  controller) is not among the sources, so those parts are modelled from the
  specification document, with error messages pinned by the test suite where
  the tests state them.  The TokenExtractionError type and its methods are
  embedded directly from errors.go.
-/

namespace EchoJwt

/-- A verification key or signing key, kept abstract as a string of key
material. -/
abbrev Key := String

/-- Modelled from the spec: the decoded token of the external JWT codec
(the codec itself is out of scope for the core).  A token carries the
declared algorithm, an optional key identifier from its header, an opaque
claim set, and the key its signature was produced with.  Signature
verification succeeds exactly when the resolved key equals that key.
Time-based claim checks are delegated to the external codec and are not
modelled; no claim under verification exercises them. -/
structure Token where
  alg : String
  kid : Option String
  claims : String
  sigKey : Key
deriving DecidableEq

/-- Modelled from the spec: a candidate credential string as seen by the
external codec.  It is either structurally a token or noise that the codec
rejects; the noise payload is the raw text. -/
inductive Cred
  | noise (s : String)
  | tok (t : Token)
deriving DecidableEq

/-- Modelled from the spec: a raw value as it sits in a request field.  A
value either carries an authentication scheme in front of the credential
(the textual form scheme plus credential) or is a bare credential.  A bare
value begins with a value prefix only when that prefix is empty. -/
inductive RawVal
  | bare (c : Cred)
  | schemed (scheme : String) (c : Cred)
deriving DecidableEq

/-- Modelled from the spec: the request as seen by the extraction
primitives, named values per location; headers and query strings may carry
repeated names. -/
structure Request where
  headers : List (String × RawVal)
  query : List (String × RawVal)
  pathParams : List (String × RawVal)
  cookies : List (String × RawVal)
  form : List (String × RawVal)

/-- The Go error universe of the middleware.  The sentinel errors, the
echo HTTP error and plain message errors, plus the two wrapper kinds of the
error taxonomy: extraction wrapping (TokenExtractionError) and parsing
wrapping (TokenParsingError). -/
inductive GoErr
  | jwtMissing
  | jwtInvalid
  | str (msg : String)
  | httpErr (code : Nat) (msg : String) (internal : String)
  | extraction (cause : GoErr)
  | parsing (cause : GoErr)
deriving DecidableEq

/-- The Error method of the Go error values: the sentinel messages are the
ones of the real sentinels, the wrappers return the wrapped message
verbatim as errors.go does for TokenExtractionError. -/
def GoErr.message : GoErr → String
  | GoErr.jwtMissing => "missing or malformed jwt"
  | GoErr.jwtInvalid => "invalid or expired jwt"
  | GoErr.str m => m
  | GoErr.httpErr code m internal =>
      "code=" ++ toString code ++ ", message=" ++ m ++ ", internal=" ++ internal
  | GoErr.extraction c => c.message
  | GoErr.parsing c => c.message

/-- Modelled from the spec: the sentinel ErrJWTMissing, declared in the
middleware file that is missing from the sources; semantically the 401
missing-or-malformed credential error. -/
def ErrJWTMissing : GoErr := GoErr.jwtMissing

/-- Embedded from errors.go: catch all type for all errors that occur when
the token is extracted from the request. -/
structure TokenExtractionError where
  Err : GoErr

/-- Embedded from errors.go: Is checks if the target error is the same as
TokenExtractionError; the receiver is ignored and the target is compared
against the sentinel ErrJWTMissing. -/
def TokenExtractionError.Is (_e : TokenExtractionError) (target : GoErr) : Bool :=
  decide (target = ErrJWTMissing)

/-- Embedded from errors.go: Error returns the wrapped error message
verbatim. -/
def TokenExtractionError.Error (e : TokenExtractionError) : String :=
  e.Err.message

/-- Embedded from errors.go: Unwrap returns the wrapped error. -/
def TokenExtractionError.Unwrap (e : TokenExtractionError) : GoErr :=
  e.Err

/-- Modelled from the spec: the per-request key value store used to publish
decoded claims to downstream handlers. -/
abbrev Store := List (String × String)

/-- Modelled from the spec: publish a value into the request store. -/
def storeSet (st : Store) (k v : String) : Store :=
  (k, v) :: st

/-- Modelled from the spec: an error handler takes the classified error and
the request store, may publish substitute values, and returns an optional
replacement error. -/
abbrev ErrHandlerFn := GoErr → Store → Option GoErr × Store

/-- Modelled from the spec: a lookup source, a tagged variant over the
request locations a credential candidate may be read from; the header
variant carries the value prefix that must be stripped. -/
inductive LookupSource
  | header (name : String) (pfx : String)
  | query (name : String)
  | param (name : String)
  | cookie (name : String)
  | form (name : String)
deriving DecidableEq

/-- Split a list of characters on a separator character; the grammar of the
lookup specification uses single-character separators. -/
def splitListOn (sep : Char) : List Char → List (List Char)
  | [] => [[]]
  | ch :: rest =>
    let r := splitListOn sep rest
    if ch = sep then [] :: r
    else
      match r with
      | [] => [[ch]]
      | g :: gs => (ch :: g) :: gs

/-- Split a string on a separator character. -/
def splitStr (sep : Char) (s : String) : List String :=
  (splitListOn sep s.data).map (fun l => String.mk l)

/-- Modelled from the spec: turn one source:name or source:name:pfx piece of
the lookup specification into a LookupSource; for the header source the
value prefix defaults to the bearer scheme.  The split error message is the
one the test suite pins. -/
def mkSource (src name : String) (p : Option String) : Except String LookupSource :=
  match src with
  | "header" => Except.ok (LookupSource.header name (p.getD "Bearer "))
  | "query" => Except.ok (LookupSource.query name)
  | "param" => Except.ok (LookupSource.param name)
  | "cookie" => Except.ok (LookupSource.cookie name)
  | "form" => Except.ok (LookupSource.form name)
  | _ => Except.error ("unsupported lookup source: " ++ src)

/-- Modelled from the spec: parse one comma-separated piece of the lookup
specification; a piece that cannot be split into source and name is
rejected with the message the test suite pins. -/
def parseOne (s : String) : Except String LookupSource :=
  match splitStr ':' s with
  | [src, name] => mkSource src name none
  | [src, name, p] => mkSource src name (some p)
  | _ => Except.error ("extractor source for lookup could not be split into needed parts: " ++ s)

/-- Modelled from the spec: parse every comma-separated piece of the lookup
specification in order, failing on the first malformed piece. -/
def parseLookupPieces : List String → Except String (List LookupSource)
  | [] => Except.ok []
  | s :: rest => do
    let a ← parseOne s
    let as ← parseLookupPieces rest
    Except.ok (a :: as)

/-- Modelled from the spec: compile the lookup specification string into
the ordered extractor sequence; rejection happens here, at build time. -/
def parseLookup (s : String) : Except String (List LookupSource) :=
  parseLookupPieces (splitStr ',' s)

/-- All values in an association list recorded under a name. -/
def lookupAll (l : List (String × RawVal)) (name : String) : List RawVal :=
  (l.filter (fun kv => kv.1 == name)).map (fun kv => kv.2)

/-- Modelled from the spec: strip the configured value prefix from a raw
header value, yielding the credential candidate when the value begins with
the prefix and nothing otherwise. -/
def stripPfxVal (p : String) : RawVal → Option Cred
  | RawVal.schemed s c => if s = p then some c else none
  | RawVal.bare c => if p = "" then some c else none

/-- Modelled from the spec: a raw value used without prefix stripping; a
value still carrying a nonempty scheme in front is not a valid credential
encoding. -/
def RawVal.toCred : RawVal → Cred
  | RawVal.bare c => c
  | RawVal.schemed s c => if s = "" then c else Cred.noise ("schemed:" ++ s)

/-- Modelled from the spec: probe one lookup source on a request, yielding
the candidate credentials or a missing-in-source diagnostic; header values
that do not begin with the configured prefix are rejected as invalid values
in the header.  The diagnostics are the ones the test suite pins. -/
def extractOne (s : LookupSource) (r : Request) : Except String (List Cred) :=
  match s with
  | LookupSource.header name p =>
    let vals := lookupAll r.headers name
    if vals = [] then Except.error "missing value in request header"
    else
      let good := vals.filterMap (stripPfxVal p)
      if good = [] then Except.error "invalid value in request header"
      else Except.ok good
  | LookupSource.query name =>
    let vals := lookupAll r.query name
    if vals = [] then Except.error "missing value in the query string"
    else Except.ok (vals.map RawVal.toCred)
  | LookupSource.param name =>
    match r.pathParams.lookup name with
    | none => Except.error "missing value in path params"
    | some v => Except.ok [v.toCred]
  | LookupSource.cookie name =>
    match r.cookies.lookup name with
    | none => Except.error "missing value in cookies"
    | some v => Except.ok [v.toCred]
  | LookupSource.form name =>
    match r.form.lookup name with
    | none => Except.error "missing value in the form"
    | some v => Except.ok [v.toCred]

/-- Modelled from the spec: the key resolution modes of the missing key
resolver: a static key with an optional explicitly configured expected
algorithm, a keyed map from key identifier to key material, or a fully
custom resolver. -/
inductive KeyConf
  | static (key : Key) (expectedAlg : Option String)
  | keyed (keys : List (String × Key))
  | custom (resolve : Token → Except String Key)

/-- Modelled from the spec: resolve the verification key from the declared
algorithm and optional key identifier of a structurally decoded token.  In
static mode an algorithm mismatch against an explicitly configured expected
algorithm is a hard failure; in keyed mode a token without a key identifier
fails with an invalid key id and one whose identifier is absent from the
map fails with an unknown key id. -/
def resolveKey (conf : KeyConf) (t : Token) : Except String Key :=
  match conf with
  | KeyConf.static key expectedAlg =>
    match expectedAlg with
    | some a =>
        if t.alg = a then Except.ok key
        else Except.error ("unexpected jwt signing method=" ++ t.alg)
    | none => Except.ok key
  | KeyConf.keyed keys =>
    match t.kid with
    | none => Except.error "invalid key id"
    | some kid =>
      match keys.lookup kid with
      | some key => Except.ok key
      | none => Except.error "unknown key id"
  | KeyConf.custom f => f t

/-- Modelled from the spec: the default token validator of the missing
middleware file.  It structurally decodes the candidate through the
external codec, resolves the key, and verifies the signature; each failure
carries the underlying cause message. -/
def defaultValidator (conf : KeyConf) (c : Cred) : Except GoErr String :=
  match c with
  | Cred.noise _ => Except.error (GoErr.str "token contains an invalid number of segments")
  | Cred.tok t =>
    match resolveKey conf t with
    | Except.error m => Except.error (GoErr.str m)
    | Except.ok key =>
        if key = t.sigKey then Except.ok t.claims
        else Except.error (GoErr.str "signature is invalid")

/-- Modelled from the spec: the declarative configuration of the missing
middleware file, with the recognized options of the external interface
section; field names follow the Go configuration struct named by the test
suite. -/
structure Config where
  SigningKey : Option Key
  SigningKeys : List (String × Key)
  SigningMethod : Option String
  KeyFunc : Option (Token → Except String Key)
  ParseTokenFunc : Option (Cred → Except GoErr String)
  TokenLookup : String
  Skipper : Option (Request → Bool)
  ErrorHandler : Option ErrHandlerFn
  ContinueOnIgnoredError : Bool
  ContextKey : String

/-- Modelled from the spec: the compiled middleware produced by the
configuration builder, immutable and shared by all request invocations. -/
structure Compiled where
  sources : List LookupSource
  validator : Cred → Except GoErr String
  skipper : Option (Request → Bool)
  errorHandler : Option ErrHandlerFn
  continueOnIgnoredError : Bool
  contextKey : String

/-- Modelled from the spec: select the key resolution mode from the
configuration: a custom resolver wins, then the keyed map when one is
supplied, then the static key with the explicitly configured expected
algorithm. -/
def keyConfOf (cfg : Config) : KeyConf :=
  match cfg.KeyFunc with
  | some f => KeyConf.custom f
  | none =>
    if cfg.SigningKeys.isEmpty then
      KeyConf.static (cfg.SigningKey.getD "") cfg.SigningMethod
    else KeyConf.keyed cfg.SigningKeys

/-- Modelled from the spec: the validator the builder compiles: a custom
token validator replaces the default wholesale. -/
def validatorOf (cfg : Config) : Cred → Except GoErr String :=
  match cfg.ParseTokenFunc with
  | some f => f
  | none => defaultValidator (keyConfOf cfg)

/-- Modelled from the spec: the effective lookup specification, defaulting
to the authorization header when none is configured. -/
def effectiveLookup (cfg : Config) : String :=
  if cfg.TokenLookup = "" then "header:Authorization" else cfg.TokenLookup

/-- Modelled from the spec: the build-time constructor of the missing
middleware file.  A configuration without any key material, custom resolver
or custom validator fails fast with the message pinned by the test suite;
a malformed lookup specification fails fast with the parse error.  Request
time never sees either failure because the request entry point is only
defined on the compiled result. -/
def Config.ToMiddleware (cfg : Config) : Except String Compiled :=
  if cfg.SigningKey.isNone && cfg.SigningKeys.isEmpty
      && cfg.KeyFunc.isNone && cfg.ParseTokenFunc.isNone then
    Except.error "jwt middleware requires signing key"
  else
    match parseLookup (effectiveLookup cfg) with
    | Except.error e => Except.error e
    | Except.ok sources =>
      Except.ok ⟨sources, validatorOf cfg, cfg.Skipper, cfg.ErrorHandler,
        cfg.ContinueOnIgnoredError, cfg.ContextKey⟩

/-- Observable events of one request traversal of the controller state
machine: extraction attempts by source position, the before hook, a
validation attempt on a candidate, the success hook, and the error handler
invocation with the classified error it receives. -/
inductive Event
  | extractFrom (idx : Nat)
  | beforeHook
  | validateCand (c : Cred)
  | successHook
  | errHandlerCall (e : GoErr)
deriving DecidableEq

/-- Modelled from the spec: probe sources in order until the first one that
yields a candidate; a source that is absent contributes its diagnostic and
the chain advances; the chain fails only when every source yielded nothing,
reporting the last missing-source diagnostic. -/
def findCandidate (r : Request) : List LookupSource → Nat → Option String → List Event × Except String Cred
  | [], _, lastDiag => ([], Except.error (lastDiag.getD "missing value in the request"))
  | s :: rest, i, lastDiag =>
    match extractOne s r with
    | Except.error d =>
      let p := findCandidate r rest (i + 1) (some d)
      (Event.extractFrom i :: p.1, p.2)
    | Except.ok [] =>
      let p := findCandidate r rest (i + 1) lastDiag
      (Event.extractFrom i :: p.1, p.2)
    | Except.ok (c :: _) => ([Event.extractFrom i], Except.ok c)

/-- Modelled from the spec: the extraction and validation core of the
controller.  When no source yields a candidate the outcome is the
classified extraction error; otherwise the before hook fires once, the
first candidate is validated, and a validation failure is final and
classified as a parsing error with no fallthrough to later sources. -/
def authenticate (m : Compiled) (r : Request) : List Event × Except GoErr String :=
  let p := findCandidate r m.sources 0 none
  match p.2 with
  | Except.error diag => (p.1, Except.error (GoErr.extraction (GoErr.str diag)))
  | Except.ok c =>
    match m.validator c with
    | Except.ok cl =>
        (p.1 ++ [Event.beforeHook, Event.validateCand c], Except.ok cl)
    | Except.error cause =>
        (p.1 ++ [Event.beforeHook, Event.validateCand c],
          Except.error (GoErr.parsing cause))

/-- Modelled from the spec: whether the skip predicate diverts this
request. -/
def skipActive (m : Compiled) (r : Request) : Bool :=
  match m.skipper with
  | some sk => sk r
  | none => false

/-- Modelled from the spec: the default translation of a classified error
into the user-visible HTTP error, with the wrapped cause preserved as the
internal message; the user-visible texts are the ones the tests pin. -/
def defaultTranslate : GoErr → GoErr
  | GoErr.extraction c => GoErr.httpErr 401 "missing or malformed jwt" c.message
  | GoErr.parsing c => GoErr.httpErr 401 "invalid or expired jwt" c.message
  | e => e

/-- Outcome of one request: continue to the next handler, or abort with an
error value. -/
inductive Outcome
  | proceed
  | abort (e : GoErr)
deriving DecidableEq

/-- Result of one request traversal: the outcome, the observable event
trace, and the final request store. -/
structure RunResult where
  outcome : Outcome
  events : List Event
  store : Store
deriving DecidableEq

/-- Modelled from the spec: the failed branch of the controller.  Without
an error handler the classified error is translated and aborts.  With one,
a nil return continues only under the continue-on-ignored-error flag,
otherwise the original classified error aborts; a non-nil return aborts
with the returned error. -/
def failPath (m : Compiled) (st : Store) (evs : List Event) (e : GoErr) : RunResult :=
  match m.errorHandler with
  | none => ⟨Outcome.abort (defaultTranslate e), evs, st⟩
  | some h =>
    let res := h e st
    match res.1 with
    | none =>
      if m.continueOnIgnoredError then
        ⟨Outcome.proceed, evs ++ [Event.errHandlerCall e], res.2⟩
      else ⟨Outcome.abort e, evs ++ [Event.errHandlerCall e], res.2⟩
    | some ret => ⟨Outcome.abort ret, evs ++ [Event.errHandlerCall e], res.2⟩

/-- Modelled from the spec: the per-request entry point of the controller
state machine.  A skipped request continues untouched with no event; on
success the claims are published under the configured key and the success
hook fires; on failure the failed branch decides. -/
def runMiddleware (m : Compiled) (r : Request) (st : Store) : RunResult :=
  if skipActive m r then ⟨Outcome.proceed, [], st⟩
  else
    let a := authenticate m r
    match a.2 with
    | Except.ok cl =>
        ⟨Outcome.proceed, a.1 ++ [Event.successHook], storeSet st m.contextKey cl⟩
    | Except.error e => failPath m st a.1 e

/-- A concrete valid token for evaluation, shaped after the one the test
suite signs with the static secret. -/
def demoToken : Token := ⟨"HS256", none, "name=John Doe", "secret"⟩

/-- A concrete token carrying a key identifier, shaped after the keyed-map
tests. -/
def kidToken : Token := ⟨"HS256", some "firstOne", "name=John Doe", "first_secret"⟩

/-- A request with no values anywhere. -/
def emptyReq : Request := ⟨[], [], [], [], []⟩

/-- The default validator over the static test secret. -/
def hsValidator : Cred → Except GoErr String :=
  defaultValidator (KeyConf.static "secret" none)

/-- Compiled middleware with a two-source chain, query then cookie, for
evaluating the multi-source claims. -/
def twoSourceMw : Compiled :=
  ⟨[LookupSource.query "jwt", LookupSource.cookie "jwt"], hsValidator,
    none, none, false, "user"⟩

/-- A request whose query carries an invalid credential while the cookie
carries a valid one. -/
def badQueryGoodCookieReq : Request :=
  ⟨[], [("jwt", RawVal.bare (Cred.noise "invalid-token"))], [],
    [("jwt", RawVal.bare (Cred.tok demoToken))], []⟩

/-- A request with only the valid cookie credential. -/
def goodCookieReq : Request :=
  ⟨[], [], [], [("jwt", RawVal.bare (Cred.tok demoToken))], []⟩

/-- Compiled middleware whose skip predicate accepts every request. -/
def skipAllMw : Compiled :=
  ⟨[LookupSource.header "Authorization" "Bearer "], hsValidator,
    some (fun _ => true), none, false, "user"⟩

/-- An error handler that publishes a substitute value and swallows the
error, shaped after the continue-on-ignored-error tests. -/
def publicTokenHandler : ErrHandlerFn :=
  fun _ st => (none, ("user", "public_token") :: st)

/-- Compiled middleware with the swallowing handler and the
continue-on-ignored-error flag enabled. -/
def continueMw : Compiled :=
  ⟨[LookupSource.header "Authorization" "Bearer "], hsValidator,
    none, some publicTokenHandler, true, "user"⟩

/-- A configuration with key material but a malformed lookup
specification, shaped after the invalid TokenLookup test. -/
def badLookupCfg : Config :=
  ⟨some "secret", [], none, none, none, "q", none, none, false, "user"⟩

/-- Compiled middleware in static mode with an explicitly configured
expected algorithm that the demo token does not declare. -/
def rsExpectedMw : Compiled :=
  ⟨[LookupSource.header "Authorization" "Bearer "],
    defaultValidator (KeyConf.static "secret" (some "RS256")),
    none, none, false, "user"⟩

/-- A request presenting the demo token under the bearer scheme. -/
def bearerDemoReq : Request :=
  ⟨[("Authorization", RawVal.schemed "Bearer " (Cred.tok demoToken))],
    [], [], [], []⟩

/-- A request whose authorization header value carries no bearer scheme. -/
def badAuthReq : Request :=
  ⟨[("Authorization", RawVal.bare (Cred.noise "invalid-auth"))],
    [], [], [], []⟩

/-- Compiled middleware over the default header lookup with no error
handler. -/
def headerMw : Compiled :=
  ⟨[LookupSource.header "Authorization" "Bearer "], hsValidator,
    none, none, false, "user"⟩

/-- An error handler that replaces the error, shaped after the custom
parse error tests. -/
def replaceHandler : ErrHandlerFn :=
  fun _ st => (some (GoErr.str "handled"), st)

/-- Compiled middleware with a custom validator that always fails and a
replacing error handler, shaped after the parse error handling test. -/
def failParseMw : Compiled :=
  ⟨[LookupSource.header "Authorization" "Bearer "],
    (fun _ => Except.error (GoErr.str "parsing failed")),
    none, some replaceHandler, false, "user"⟩

/-- A request presenting a noise credential under the bearer scheme. -/
def bearerNoiseReq : Request :=
  ⟨[("Authorization", RawVal.schemed "Bearer " (Cred.noise "invalid_header"))],
    [], [], [], []⟩

/-- C1: with at least two lookup sources, when the first source yields a
syntactically present candidate that fails validation, the classified
outcome is a TokenParsingError wrapping the cause, the event trace shows no
extraction or validation attempt beyond the first source, and the request
aborts with the parsing-side default translation. -/
theorem c1_first_source_validation_failure_is_final
    (m : Compiled) (r : Request) (st : Store)
    (s1 : LookupSource) (rest : List LookupSource)
    (c : Cred) (cs : List Cred) (cause : GoErr)
    (hsrc : m.sources = s1 :: rest)
    (_hrest : rest ≠ [])
    (hex : extractOne s1 r = Except.ok (c :: cs))
    (hval : m.validator c = Except.error cause)
    (hskip : skipActive m r = false)
    (hnoh : m.errorHandler = none) :
    authenticate m r
      = ([Event.extractFrom 0, Event.beforeHook, Event.validateCand c],
          Except.error (GoErr.parsing cause))
    ∧ (runMiddleware m r st).outcome
      = Outcome.abort (GoErr.httpErr 401 "invalid or expired jwt" cause.message) := by
  have hauth : authenticate m r
      = ([Event.extractFrom 0, Event.beforeHook, Event.validateCand c],
          Except.error (GoErr.parsing cause)) := by
    simp [authenticate, hsrc, findCandidate, hex, hval]
  refine ⟨hauth, ?_⟩
  simp [runMiddleware, hskip, hauth, failPath, hnoh, defaultTranslate]

/-- C1 witness at the two-source middleware with an invalid query
credential and a valid cookie credential. -/
theorem c1_witness :
    authenticate twoSourceMw badQueryGoodCookieReq
      = ([Event.extractFrom 0, Event.beforeHook,
          Event.validateCand (Cred.noise "invalid-token")],
          Except.error (GoErr.parsing
            (GoErr.str "token contains an invalid number of segments")))
    ∧ (runMiddleware twoSourceMw badQueryGoodCookieReq []).outcome
      = Outcome.abort (GoErr.httpErr 401 "invalid or expired jwt"
          "token contains an invalid number of segments") :=
  c1_first_source_validation_failure_is_final twoSourceMw badQueryGoodCookieReq []
    (LookupSource.query "jwt") [LookupSource.cookie "jwt"]
    (Cred.noise "invalid-token") [] (GoErr.str "token contains an invalid number of segments")
    rfl (List.cons_ne_nil _ _) rfl rfl rfl rfl

/-- C2: when the skip predicate accepts the request, the run continues with
an empty event trace, so no extraction, validation, before hook, success
hook or error handler call occurs, and the store is untouched. -/
theorem c2_skip_bypasses_everything
    (m : Compiled) (r : Request) (st : Store) (sk : Request → Bool)
    (hsk : m.skipper = some sk) (htrue : sk r = true) :
    runMiddleware m r st = ⟨Outcome.proceed, [], st⟩ := by
  simp [runMiddleware, skipActive, hsk, htrue]

/-- C2 witness at the middleware whose skip predicate accepts every
request. -/
theorem c2_witness :
    runMiddleware skipAllMw emptyReq [] = ⟨Outcome.proceed, [], []⟩ :=
  c2_skip_bypasses_everything skipAllMw emptyReq [] (fun _ => true) rfl rfl

/-- C3: when authentication fails, an error handler is configured, it
returns nil, and the continue-on-ignored-error flag is enabled, the run
continues without error and the final store is exactly the one the handler
produced, so no claims are published beyond the substitutes the handler
itself wrote. -/
theorem c3_continue_on_ignored_error
    (m : Compiled) (r : Request) (st st2 : Store)
    (h : ErrHandlerFn) (evs : List Event) (e : GoErr)
    (hh : m.errorHandler = some h)
    (hflag : m.continueOnIgnoredError = true)
    (hskip : skipActive m r = false)
    (hauth : authenticate m r = (evs, Except.error e))
    (hret : h e st = (none, st2)) :
    runMiddleware m r st = ⟨Outcome.proceed, evs ++ [Event.errHandlerCall e], st2⟩ := by
  simp [runMiddleware, hskip, hauth, failPath, hh, hret, hflag]

/-- C3 witness at the swallowing handler that publishes a substitute value
while the authorization header is absent. -/
theorem c3_witness :
    runMiddleware continueMw emptyReq []
      = ⟨Outcome.proceed,
          [Event.extractFrom 0,
            Event.errHandlerCall (GoErr.extraction (GoErr.str "missing value in request header"))],
          [("user", "public_token")]⟩ :=
  c3_continue_on_ignored_error continueMw emptyReq [] [("user", "public_token")]
    publicTokenHandler [Event.extractFrom 0]
    (GoErr.extraction (GoErr.str "missing value in request header"))
    rfl rfl rfl rfl rfl

/-- C4: a configuration without signing key, signing keys map, custom key
resolver and custom token validator, or one whose lookup specification is
malformed, fails at build time: the constructor returns an error and no
compiled middleware is ever produced from it, so no request-time invocation
can observe such a configuration error. -/
theorem c4_build_time_rejection
    (cfg : Config)
    (hbad : (cfg.SigningKey = none ∧ cfg.SigningKeys = []
              ∧ cfg.KeyFunc = none ∧ cfg.ParseTokenFunc = none)
          ∨ (∃ d, parseLookup (effectiveLookup cfg) = Except.error d)) :
    (∃ msg, cfg.ToMiddleware = Except.error msg)
    ∧ ∀ mw, cfg.ToMiddleware ≠ Except.ok mw := by
  have herr : ∃ msg, cfg.ToMiddleware = Except.error msg := by
    rcases hbad with ⟨h1, h2, h3, h4⟩ | ⟨d, hd⟩
    · refine ⟨"jwt middleware requires signing key", ?_⟩
      simp [Config.ToMiddleware, h1, h2, h3, h4]
    · by_cases hc : (cfg.SigningKey.isNone && cfg.SigningKeys.isEmpty
          && cfg.KeyFunc.isNone && cfg.ParseTokenFunc.isNone) = true
      · exact ⟨"jwt middleware requires signing key", by simp [Config.ToMiddleware, hc]⟩
      · exact ⟨d, by simp [Config.ToMiddleware, hc, hd]⟩
  rcases herr with ⟨msg, hmsg⟩
  refine ⟨⟨msg, hmsg⟩, ?_⟩
  intro mw hok
  rw [hmsg] at hok
  exact Except.noConfusion hok

/-- C4 witness at the configuration whose lookup specification cannot be
split into its needed parts. -/
theorem c4_witness :
    (∃ msg, badLookupCfg.ToMiddleware = Except.error msg)
    ∧ ∀ mw, badLookupCfg.ToMiddleware ≠ Except.ok mw :=
  c4_build_time_rejection badLookupCfg
    (Or.inr ⟨"extractor source for lookup could not be split into needed parts: q", rfl⟩)

/-- C5: a token signed with the key registered under its key identifier in
a keyed-map configuration validates to exactly the claims that were signed,
and the same token against a map missing that identifier fails with the
unknown key id error. -/
theorem c5_keyed_map_roundtrip
    (keys keysMissing : List (String × Key)) (kid key alg cl : String)
    (hfound : keys.lookup kid = some key)
    (hmiss : keysMissing.lookup kid = none) :
    defaultValidator (KeyConf.keyed keys) (Cred.tok ⟨alg, some kid, cl, key⟩)
      = Except.ok cl
    ∧ defaultValidator (KeyConf.keyed keysMissing) (Cred.tok ⟨alg, some kid, cl, key⟩)
      = Except.error (GoErr.str "unknown key id") := by
  constructor
  · simp [defaultValidator, resolveKey, hfound]
  · simp [defaultValidator, resolveKey, hmiss]

/-- C5 witness at the keyed maps of the key identifier tests. -/
theorem c5_witness :
    defaultValidator (KeyConf.keyed [("firstOne", "first_secret")]) (Cred.tok kidToken)
      = Except.ok "name=John Doe"
    ∧ defaultValidator (KeyConf.keyed [("thirdOne", "third_secret")]) (Cred.tok kidToken)
      = Except.error (GoErr.str "unknown key id") :=
  c5_keyed_map_roundtrip [("firstOne", "first_secret")] [("thirdOne", "third_secret")]
    "firstOne" "first_secret" "HS256" "name=John Doe" rfl rfl

/-- C6: in static-key mode with an explicitly configured expected
algorithm, a structurally accepted token declaring a different algorithm is
classified as a TokenParsingError carrying the unexpected signing method
message, not as a TokenExtractionError. -/
theorem c6_unexpected_signing_method_is_parsing_error
    (m : Compiled) (r : Request) (key a : String) (t : Token) (evs : List Event)
    (hval : m.validator = defaultValidator (KeyConf.static key (some a)))
    (halg : t.alg ≠ a)
    (hfind : findCandidate r m.sources 0 none = (evs, Except.ok (Cred.tok t))) :
    authenticate m r
      = (evs ++ [Event.beforeHook, Event.validateCand (Cred.tok t)],
          Except.error (GoErr.parsing
            (GoErr.str ("unexpected jwt signing method=" ++ t.alg)))) := by
  simp [authenticate, hfind, hval, defaultValidator, resolveKey, halg]

/-- C6 witness at the middleware expecting RS256 while the demo token
declares HS256. -/
theorem c6_witness :
    authenticate rsExpectedMw bearerDemoReq
      = ([Event.extractFrom 0] ++ [Event.beforeHook, Event.validateCand (Cred.tok demoToken)],
          Except.error (GoErr.parsing
            (GoErr.str ("unexpected jwt signing method=" ++ demoToken.alg)))) :=
  c6_unexpected_signing_method_is_parsing_error rsExpectedMw bearerDemoReq
    "secret" "RS256" demoToken [Event.extractFrom 0] rfl (by decide) rfl

/-- C7: a header-sourced request whose values all fail the configured value
prefix is rejected during extraction: the classified outcome is a
TokenExtractionError with the invalid header value diagnostic, never a
TokenParsingError, and the default translation aborts with the 401
missing-or-malformed message. -/
theorem c7_header_without_pfx_is_extraction_error
    (m : Compiled) (r : Request) (st : Store) (name p : String)
    (hsrc : m.sources = [LookupSource.header name p])
    (hne : lookupAll r.headers name ≠ [])
    (hbad : ∀ v ∈ lookupAll r.headers name, stripPfxVal p v = none)
    (hskip : skipActive m r = false)
    (hnoh : m.errorHandler = none) :
    authenticate m r
      = ([Event.extractFrom 0],
          Except.error (GoErr.extraction (GoErr.str "invalid value in request header")))
    ∧ (runMiddleware m r st).outcome
      = Outcome.abort (GoErr.httpErr 401 "missing or malformed jwt"
          "invalid value in request header") := by
  have hfm : (lookupAll r.headers name).filterMap (stripPfxVal p) = [] :=
    List.filterMap_eq_nil_iff.mpr hbad
  have hone : extractOne (LookupSource.header name p) r
      = Except.error "invalid value in request header" := by
    simp [extractOne, hne, hfm]
  have hauth : authenticate m r
      = ([Event.extractFrom 0],
          Except.error (GoErr.extraction (GoErr.str "invalid value in request header"))) := by
    simp [authenticate, hsrc, findCandidate, hone]
  refine ⟨hauth, ?_⟩
  simp [runMiddleware, hskip, hauth, failPath, hnoh, defaultTranslate, GoErr.message]

/-- C7 witness at the request whose authorization header value carries no
bearer scheme. -/
theorem c7_witness :
    authenticate headerMw badAuthReq
      = ([Event.extractFrom 0],
          Except.error (GoErr.extraction (GoErr.str "invalid value in request header")))
    ∧ (runMiddleware headerMw badAuthReq []).outcome
      = Outcome.abort (GoErr.httpErr 401 "missing or malformed jwt"
          "invalid value in request header") :=
  c7_header_without_pfx_is_extraction_error headerMw badAuthReq []
    "Authorization" "Bearer " rfl (by decide) (by decide) rfl rfl

/-- C8: when validation fails, the configured error handler receives the
TokenParsingError wrapping the underlying cause, and the message of that
wrapper equals the message of the cause verbatim. -/
theorem c8_parsing_error_carries_cause_verbatim
    (m : Compiled) (r : Request) (st : Store)
    (h : ErrHandlerFn) (evs : List Event) (cause : GoErr)
    (hh : m.errorHandler = some h)
    (hskip : skipActive m r = false)
    (hauth : authenticate m r = (evs, Except.error (GoErr.parsing cause))) :
    (runMiddleware m r st).events = evs ++ [Event.errHandlerCall (GoErr.parsing cause)]
    ∧ GoErr.message (GoErr.parsing cause) = GoErr.message cause := by
  refine ⟨?_, rfl⟩
  simp only [runMiddleware, hskip, Bool.false_eq_true, if_false, hauth, failPath, hh]
  rcases hres : (h (GoErr.parsing cause) st).1 with _ | ret
  · simp [hres]
    split <;> rfl
  · simp [hres]

/-- C8 witness at the always-failing custom validator and the replacing
error handler. -/
theorem c8_witness :
    (runMiddleware failParseMw bearerNoiseReq []).events
      = [Event.extractFrom 0, Event.beforeHook,
          Event.validateCand (Cred.noise "invalid_header")]
        ++ [Event.errHandlerCall (GoErr.parsing (GoErr.str "parsing failed"))]
    ∧ GoErr.message (GoErr.parsing (GoErr.str "parsing failed"))
      = GoErr.message (GoErr.str "parsing failed") :=
  c8_parsing_error_carries_cause_verbatim failParseMw bearerNoiseReq []
    replaceHandler
    [Event.extractFrom 0, Event.beforeHook, Event.validateCand (Cred.noise "invalid_header")]
    (GoErr.str "parsing failed") rfl rfl rfl

/-- C9: with a two-source chain where the first source yields no candidate
and the second yields one carrying a valid credential, the run validates
the second candidate, publishes its claims and continues; the event trace
shows both extraction attempts and the single successful validation. -/
theorem c9_fallback_across_absent_source
    (m : Compiled) (r : Request) (st : Store)
    (sA sB : LookupSource) (dA : String) (c : Cred) (cs : List Cred) (cl : String)
    (hsrc : m.sources = [sA, sB])
    (hA : extractOne sA r = Except.error dA)
    (hB : extractOne sB r = Except.ok (c :: cs))
    (hval : m.validator c = Except.ok cl)
    (hskip : skipActive m r = false) :
    runMiddleware m r st
      = ⟨Outcome.proceed,
          [Event.extractFrom 0, Event.extractFrom 1, Event.beforeHook,
            Event.validateCand c, Event.successHook],
          storeSet st m.contextKey cl⟩ := by
  have hauth : authenticate m r
      = ([Event.extractFrom 0, Event.extractFrom 1, Event.beforeHook,
          Event.validateCand c], Except.ok cl) := by
    simp [authenticate, hsrc, findCandidate, hA, hB, hval]
  simp [runMiddleware, hskip, hauth]

/-- C9 witness at the query-then-cookie chain with the query string absent
and the valid cookie credential. -/
theorem c9_witness :
    runMiddleware twoSourceMw goodCookieReq []
      = ⟨Outcome.proceed,
          [Event.extractFrom 0, Event.extractFrom 1, Event.beforeHook,
            Event.validateCand (Cred.tok demoToken), Event.successHook],
          storeSet [] twoSourceMw.contextKey "name=John Doe"⟩ :=
  c9_fallback_across_absent_source twoSourceMw goodCookieReq []
    (LookupSource.query "jwt") (LookupSource.cookie "jwt")
    "missing value in the query string" (Cred.tok demoToken) [] "name=John Doe"
    rfl rfl rfl rfl rfl

/-- C10: the Is method of TokenExtractionError holds exactly when the
target is the sentinel ErrJWTMissing, whatever error the value wraps, and
Unwrap returns exactly the wrapped error. -/
theorem c10_extraction_error_is_and_unwrap
    (e : TokenExtractionError) (target : GoErr) :
    (e.Is target = true ↔ target = ErrJWTMissing) ∧ e.Unwrap = e.Err := by
  exact ⟨by simp [TokenExtractionError.Is], rfl⟩

end EchoJwt
